import Mathlib

/-!
# Verification of the marumo face-masking core

A shallow embedding, in Lean 4, of the geometry / selection / history engine
of the marumo application (files `src/services/faceDetection.ts`,
`src/services/imageProcessor.ts`, `src/App.tsx`, the `LassoSelector`
component and the `useFaceDetection` hook), together with theorems checking
the natural-language specification against it.

Modelling conventions:
* JavaScript numbers are modelled exactly: `ℚ` where the source uses only
  field operations, comparisons, `Math.max`/`Math.min`/`Math.floor`, and `ℝ`
  where `Math.sqrt` occurs (`Real.sqrt`).  `Math.floor` is `Int.floor`.
* Arrays become `List`s, `Array.prototype.filter`/`map`/`some` become
  `List.filter`/`map`/`any`, and imperative accumulation loops become
  explicit recursions in source order.
* React `useState`/`useRef` cells become fields of explicit state records;
  a handler is a function from the old state to the new state.
* The MediaPipe detector itself is an external collaborator; its raw result
  enters the model as data (a list of raw detections, or an oracle).
-/

namespace Marumo

/-- A detected face region: `FaceDetectionResult` from `src/types`
(`{x, y, width, height, confidence}`), over an ordered field (`ℚ` for the
exactly-representable paths, `ℝ` where the source takes square roots). -/
structure Face (α : Type) where
  x : α
  y : α
  width : α
  height : α
  confidence : α
deriving DecidableEq, Repr

/-- `calculateIoU` from `src/services/faceDetection.ts` (also duplicated
inline in `App.tsx` `onSelectionComplete`): intersection over union of two
axis-aligned rectangles, `0` when they do not overlap. -/
def calculateIoU {α : Type} [LinearOrderedField α] (face1 face2 : Face α) : α :=
  let x1 := max face1.x face2.x
  let y1 := max face1.y face2.y
  let x2 := min (face1.x + face1.width) (face2.x + face2.width)
  let y2 := min (face1.y + face1.height) (face2.y + face2.height)
  if x2 ≤ x1 ∨ y2 ≤ y1 then 0
  else
    let intersection := (x2 - x1) * (y2 - y1)
    let area1 := face1.width * face1.height
    let area2 := face2.width * face2.height
    let union := area1 + area2 - intersection
    if 0 < union then intersection / union else 0

theorem calculateIoU_comm {α : Type} [LinearOrderedField α] (f1 f2 : Face α) :
    calculateIoU f1 f2 = calculateIoU f2 f1 := by
  simp only [calculateIoU]
  rw [max_comm f1.x, max_comm f1.y, min_comm (f1.x + f1.width), min_comm (f1.y + f1.height),
    add_comm (f1.width * f1.height) (f2.width * f2.height)]

theorem calculateIoU_self {α : Type} [LinearOrderedField α] (f : Face α)
    (hw : 0 < f.width) (hh : 0 < f.height) : calculateIoU f f = 1 := by
  unfold calculateIoU
  simp only [max_self, min_self]
  rw [if_neg, if_pos]
  · field_simp
  · have : f.x + f.width - f.x = f.width := by ring
    have : (f.x + f.width - f.x) * (f.y + f.height - f.y) = f.width * f.height := by ring
    rw [this]
    nlinarith
  · push_neg
    constructor <;> nlinarith

/-- Insertion of a face into a list already sorted by descending confidence;
together with `sortByConfDesc` this models the stable JavaScript
`[...faces].sort((a, b) => b.confidence - a.confidence)`. -/
def insertByConfDesc {α : Type} [LinearOrderedField α] (f : Face α) :
    List (Face α) → List (Face α)
  | [] => [f]
  | g :: gs => if g.confidence < f.confidence then f :: g :: gs else g :: insertByConfDesc f gs

/-- Sort by strictly descending confidence (stable insertion sort, matching
the stable JS `Array.prototype.sort` with comparator
`(a, b) => b.confidence - a.confidence`). -/
def sortByConfDesc {α : Type} [LinearOrderedField α] (faces : List (Face α)) : List (Face α) :=
  faces.foldl (fun acc f => insertByConfDesc f acc) []

/-- The inner accept/reject loop of `removeDuplicateDetections`
(`faceDetection.ts`): a face is appended to the accumulated `result` exactly
when its IoU with every already-accepted face is `≤ iouThreshold`. -/
def dedupLoop {α : Type} [LinearOrderedField α] (iouThreshold : α) :
    List (Face α) → List (Face α) → List (Face α)
  | result, [] => result
  | result, face :: rest =>
    if result.any (fun existing => iouThreshold < calculateIoU face existing) then
      dedupLoop iouThreshold result rest
    else
      dedupLoop iouThreshold (result ++ [face]) rest

/-- `removeDuplicateDetections(faces, iouThreshold)` from
`src/services/faceDetection.ts`: sort by descending confidence, then greedily
keep a face only if its IoU against every kept face is `≤ iouThreshold`. -/
def removeDuplicateDetections {α : Type} [LinearOrderedField α]
    (faces : List (Face α)) (iouThreshold : α) : List (Face α) :=
  if faces.isEmpty then [] else dedupLoop iouThreshold [] (sortByConfDesc faces)

theorem mem_insertByConfDesc {α : Type} [LinearOrderedField α] {f a : Face α}
    {l : List (Face α)} : a ∈ insertByConfDesc f l ↔ a = f ∨ a ∈ l := by
  induction l with
  | nil => simp [insertByConfDesc]
  | cons g gs ih =>
    by_cases h : g.confidence < f.confidence
    · simp only [insertByConfDesc, if_pos h, List.mem_cons] <;> tauto
    · simp only [insertByConfDesc, if_neg h, List.mem_cons, ih] <;> tauto

theorem mem_sortByConfDesc {α : Type} [LinearOrderedField α] {a : Face α}
    {l : List (Face α)} : a ∈ sortByConfDesc l ↔ a ∈ l := by
  suffices h : ∀ acc, a ∈ l.foldl (fun acc f => insertByConfDesc f acc) acc ↔ a ∈ l ∨ a ∈ acc by
    have := h []
    simpa [sortByConfDesc] using this
  induction l with
  | nil => simp
  | cons g gs ih =>
    intro acc
    simp only [List.foldl_cons, ih, mem_insertByConfDesc, List.mem_cons]
    tauto

/-- The accumulated result only grows: each step of the dedup loop leaves the
already-accepted prefix in place. -/
theorem dedupLoop_pairwise {α : Type} [LinearOrderedField α] (t : α)
    (l : List (Face α)) :
    ∀ result : List (Face α),
      result.Pairwise (fun a b => calculateIoU a b ≤ t) →
      (dedupLoop t result l).Pairwise (fun a b => calculateIoU a b ≤ t) := by
  induction l with
  | nil => intro result h; simpa [dedupLoop] using h
  | cons face rest ih =>
    intro result h
    by_cases hdup : result.any (fun existing => t < calculateIoU face existing)
    · simpa [dedupLoop, hdup] using ih result h
    · have hall : ∀ existing ∈ result, calculateIoU face existing ≤ t := by
        intro e he
        have := (List.any_eq_true.not.mp hdup)
        push_neg at this
        have := this e he
        simpa using le_of_not_lt (by simpa using this)
      have happ : (result ++ [face]).Pairwise (fun a b => calculateIoU a b ≤ t) := by
        refine List.pairwise_append.mpr ⟨h, List.pairwise_singleton _ _, ?_⟩
        intro a ha b hb
        simp only [List.mem_singleton] at hb
        subst hb
        rw [calculateIoU_comm]
        exact hall a ha
      simpa [dedupLoop, hdup] using ih (result ++ [face]) happ

/-- Output of the duplicate resolver is pairwise non-duplicate: no two kept
regions have IoU above the threshold. -/
theorem removeDuplicateDetections_pairwise {α : Type} [LinearOrderedField α]
    (faces : List (Face α)) (t : α) :
    (removeDuplicateDetections faces t).Pairwise (fun a b => calculateIoU a b ≤ t) := by
  unfold removeDuplicateDetections
  by_cases h : faces.isEmpty
  · simp [h]
  · simpa [h] using dedupLoop_pairwise t (sortByConfDesc faces) [] (by simp)

/-! ## Claim C1: the DuplicateResolver -/

/-- First region of the C1 counterexample chain: `[0,10]×[0,10]`, confidence `0.9`. -/
def c1A : Face ℚ := ⟨0, 0, 10, 10, 9/10⟩

/-- Second region of the C1 counterexample chain: `[4,14]×[0,10]`, confidence `0.6`;
IoU with `c1A` is `3/7 > 0.3`. -/
def c1B : Face ℚ := ⟨4, 0, 10, 10, 6/10⟩

/-- Third region of the C1 counterexample chain: `[8,18]×[0,10]`, confidence `0.5`;
IoU with `c1B` is `3/7 > 0.3`, IoU with `c1A` is `1/9 ≤ 0.3`. -/
def c1C : Face ℚ := ⟨8, 0, 10, 10, 5/10⟩

/-- Two detections with IoU exactly `1/2` and confidences `0.9`/`0.6`
(the end-to-end scenario of the spec): `[0,12]×[0,12]` and `[4,16]×[0,12]`. -/
def c1Hi : Face ℚ := ⟨0, 0, 12, 12, 9/10⟩

/-- The lower-confidence detection of the IoU-`0.5` scenario pair. -/
def c1Lo : Face ℚ := ⟨4, 0, 12, 12, 6/10⟩

/-- C1, counterexample. The claim asserts that for every pair of regions with
IoU above the threshold only the higher-confidence one is kept.  On the chain
`c1A, c1B, c1C` (confidences 0.9 > 0.6 > 0.5), `c1B` is discarded as a
duplicate of `c1A`, after which `c1C` is accepted: the pair `(c1B, c1C)` has
IoU `3/7 > 0.3`, yet the region kept from that pair is the lower-confidence
`c1C`, not `c1B`. -/
theorem duplicateResolver_keeps_lower_confidence_of_pair :
    (3 : ℚ)/10 < calculateIoU c1B c1C ∧
      c1C.confidence < c1B.confidence ∧
      c1C ∈ removeDuplicateDetections [c1A, c1B, c1C] (3/10) ∧
      c1B ∉ removeDuplicateDetections [c1A, c1B, c1C] (3/10) := by
  have h : removeDuplicateDetections [c1A, c1B, c1C] (3/10) = [c1A, c1C] := by
    norm_num [removeDuplicateDetections, dedupLoop, sortByConfDesc, insertByConfDesc,
      calculateIoU, c1A, c1B, c1C, max_def, min_def]
  refine ⟨?_, ?_, ?_, ?_⟩
  · norm_num [calculateIoU, c1B, c1C, max_def, min_def]
  · norm_num [c1B, c1C]
  · rw [h]; simp
  · rw [h]
    norm_num [c1A, c1B, c1C, Face.mk.injEq]

/-- C1, amended: `removeDuplicateDetections` sorts descending by confidence
and greedily accepts a region only when its IoU with every accepted region is
`≤` the threshold; hence no two returned regions have IoU above the threshold
(so at most one region of each conflicting pair survives — though with three
or more regions the survivor of a pair can be its lower-confidence member),
and on the two-detection scenario with IoU `0.5` and confidences `0.9`/`0.6`
at threshold `0.3` only the `0.9` region is returned. -/
theorem duplicateResolver_pairwise_and_scenario :
    (∀ (faces : List (Face ℚ)) (t : ℚ),
        (removeDuplicateDetections faces t).Pairwise
          (fun a b => calculateIoU a b ≤ t)) ∧
      calculateIoU c1Hi c1Lo = 1/2 ∧
      removeDuplicateDetections [c1Hi, c1Lo] (3/10) = [c1Hi] := by
  refine ⟨fun faces t => removeDuplicateDetections_pairwise faces t, ?_, ?_⟩
  · norm_num [calculateIoU, c1Hi, c1Lo, max_def, min_def]
  · norm_num [removeDuplicateDetections, dedupLoop, sortByConfDesc, insertByConfDesc,
      calculateIoU, c1Hi, c1Lo, max_def, min_def]

/-! ## Claim C5: the DetectionResultNormalizer -/

/-- A raw MediaPipe detection as consumed by
`convertDetectionsToImageCoordinates`: a normalized (0–1) center-based
bounding box relative to the detector canvas, together with the confidence
the service extracts from the loosely-typed result (`extractConfidence`). -/
structure RawDetection where
  xCenter : ℚ
  yCenter : ℚ
  width : ℚ
  height : ℚ
  score : ℚ
deriving DecidableEq, Repr

/-- `convertDetectionsToImageCoordinates` from `src/services/faceDetection.ts`:
normalized center+size boxes are converted to top-left+size in detector-canvas
pixels, scaled by `imageDim / canvasDim` per axis, then `x, y` are clamped to
`≥ 0` and `width, height` are capped at `imageDim - x/y`.  It is a `map`:
no detection is dropped. -/
def convertDetectionsToImageCoordinates (detections : List RawDetection)
    (canvasWidth canvasHeight imageWidth imageHeight : ℚ) : List (Face ℚ) :=
  let scaleX := imageWidth / canvasWidth
  let scaleY := imageHeight / canvasHeight
  detections.map fun d =>
    let x := (d.xCenter - d.width / 2) * canvasWidth * scaleX
    let y := (d.yCenter - d.height / 2) * canvasHeight * scaleY
    let width := d.width * canvasWidth * scaleX
    let height := d.height * canvasHeight * scaleY
    { x := max 0 x
      y := max 0 y
      width := min width (imageWidth - max 0 x)
      height := min height (imageHeight - max 0 y)
      confidence := d.score }

/-- C5, counterexample. A detection centered at normalized `x = 1.5` on a
100×100 canvas/image converts to `x = 140`, whose capped width is
`min 20 (100 - 140) = -40 ≤ 0`; the converter keeps it (it is a `map`), so
the returned list does not consist of strictly positive regions. -/
theorem normalizer_keeps_nonpositive_region :
    convertDetectionsToImageCoordinates [⟨3/2, 1/2, 1/5, 1/5, 9/10⟩] 100 100 100 100 =
        [⟨140, 40, -40, 20, 9/10⟩] ∧
      ¬ (∀ r ∈ convertDetectionsToImageCoordinates [⟨3/2, 1/2, 1/5, 1/5, 9/10⟩] 100 100 100 100,
          0 < r.width ∧ 0 < r.height) := by
  have h : convertDetectionsToImageCoordinates [⟨3/2, 1/2, 1/5, 1/5, 9/10⟩] 100 100 100 100 =
      [⟨140, 40, -40, 20, 9/10⟩] := by
    norm_num [convertDetectionsToImageCoordinates, max_def, min_def]
  refine ⟨h, ?_⟩
  rw [h]
  intro hall
  have := (hall ⟨140, 40, -40, 20, 9/10⟩ (by simp)).1
  norm_num at this

/-- C5, amended: the normalizer converts every raw detection (the output list
has the same length as the input — regions with non-positive clamped width or
height are *not* dropped), clamps `x, y ≥ 0` and caps `width ≤ imageWidth - x`,
`height ≤ imageHeight - y`; on the spec scenario (normalized box
`{0.5, 0.5, 0.2, 0.2}`, canvas and image 100×100) it yields
`{x:40, y:40, width:20, height:20}`. -/
theorem normalizer_maps_and_clamps :
    (∀ (dets : List RawDetection) (cw ch iw ih : ℚ),
        (convertDetectionsToImageCoordinates dets cw ch iw ih).length = dets.length ∧
        ∀ r ∈ convertDetectionsToImageCoordinates dets cw ch iw ih,
          0 ≤ r.x ∧ 0 ≤ r.y ∧ r.width ≤ iw - r.x ∧ r.height ≤ ih - r.y) ∧
      ∀ s : ℚ, convertDetectionsToImageCoordinates [⟨1/2, 1/2, 1/5, 1/5, s⟩] 100 100 100 100 =
        [⟨40, 40, 20, 20, s⟩] := by
  constructor
  · intro dets cw ch iw ih
    constructor
    · simp [convertDetectionsToImageCoordinates]
    · intro r hr
      simp only [convertDetectionsToImageCoordinates, List.mem_map] at hr
      obtain ⟨d, _, rfl⟩ := hr
      refine ⟨le_max_left 0 _, le_max_left 0 _, ?_, ?_⟩
      · exact min_le_right _ _
      · exact min_le_right _ _
  · intro s
    norm_num [convertDetectionsToImageCoordinates, max_def, min_def, Face.mk.injEq]

/-! ## The selection history (`App.tsx`)

State cells `facesHistory`, `historyIndex`, `faces` of `App.tsx`; the
`isNavigatingHistoryRef` re-entrancy guard enters `addToHistory` as an
explicit argument.  `historyIndex` is `-1` for an empty history, so it is
modelled as `ℤ`. -/

/-- The history-relevant `useState` cells of `App.tsx`. -/
structure HistoryState where
  facesHistory : List (List (Face ℚ))
  historyIndex : ℤ
  faces : List (Face ℚ)
deriving DecidableEq, Repr

/-- `addToHistory` from `App.tsx`: do nothing when the new face set is empty
or while a history-navigation operation is in progress
(`isNavigatingHistoryRef`); otherwise drop every entry after the cursor
(`slice(0, historyIndex + 1)`), append the new set, and point the cursor at
the new tail. -/
def addToHistory (isNavigatingHistory : Bool) (newFaces : List (Face ℚ))
    (s : HistoryState) : HistoryState :=
  if newFaces.isEmpty then s
  else if isNavigatingHistory then s
  else
    let newHistory := s.facesHistory.take (s.historyIndex + 1).toNat ++ [newFaces]
    { s with facesHistory := newHistory, historyIndex := (newHistory.length : ℤ) - 1 }

/-- The caller sequence around a successful region merge or auto-select in
`App.tsx`: `setFaces(newFaces)` followed by `addToHistory(newFaces)` (outside
history navigation). -/
def commitFaces (newFaces : List (Face ℚ)) (s : HistoryState) : HistoryState :=
  addToHistory false newFaces { s with faces := newFaces }

/-- `onUndo` from `App.tsx`: when `historyIndex > 0`, decrement the cursor and
replace the active faces with a copy of the entry at the new cursor; the
returned `Option` is the face set handed back to the caller (`null` = the
guard rejected).  The navigation flag is raised and then cleared by the
zero-delay timer, so its net effect is absent from the state. -/
def onUndo (s : HistoryState) : Option (List (Face ℚ)) × HistoryState :=
  if 0 < s.historyIndex then
    let newIndex := s.historyIndex - 1
    let entry := s.facesHistory.getD newIndex.toNat []
    (some entry, { s with historyIndex := newIndex, faces := entry })
  else (none, s)

/-- `onRedo` from `App.tsx`: when `historyIndex < facesHistory.length - 1`,
increment the cursor and replace the active faces with a copy of the entry at
the new cursor. -/
def onRedo (s : HistoryState) : Option (List (Face ℚ)) × HistoryState :=
  if s.historyIndex < (s.facesHistory.length : ℤ) - 1 then
    let newIndex := s.historyIndex + 1
    let entry := s.facesHistory.getD newIndex.toNat []
    (some entry, { s with historyIndex := newIndex, faces := entry })
  else (none, s)

/-- The empty history: no entries, cursor `-1`, no active faces (the state
after a new image resets the history in `handleFileSelect`). -/
def emptyHistory : HistoryState := ⟨[], -1, []⟩

/-- Face set `A` of the history scenario. -/
def histA : List (Face ℚ) := [⟨0, 0, 1, 1, 1⟩]

/-- Face set `B` of the history scenario. -/
def histB : List (Face ℚ) := [⟨2, 2, 1, 1, 1⟩]

/-- Face set `C` of the history scenario. -/
def histC : List (Face ℚ) := [⟨4, 4, 1, 1, 1⟩]

/-- C3: `addToHistory` is a no-op (entry list and cursor unchanged) on an
empty face set or while history navigation is in progress; otherwise it
truncates after the cursor, appends the new set and moves the cursor to the
new tail.  Consequently `commit A; commit B; undo; commit C` truncates the
redo branch: the following `redo()` returns `null` and changes nothing
(and the preceding `undo()` had returned `A`). -/
theorem addToHistory_spec_and_truncation_scenario :
    (∀ (nav : Bool) (s : HistoryState), addToHistory nav [] s = s) ∧
      (∀ (newFaces : List (Face ℚ)) (s : HistoryState), addToHistory true newFaces s = s) ∧
      (∀ (f : Face ℚ) (fs : List (Face ℚ)) (s : HistoryState),
        addToHistory false (f :: fs) s =
          { s with
              facesHistory := s.facesHistory.take (s.historyIndex + 1).toNat ++ [f :: fs],
              historyIndex := ((s.facesHistory.take (s.historyIndex + 1).toNat).length : ℤ) }) ∧
      (onUndo (commitFaces histB (commitFaces histA emptyHistory))).1 = some histA ∧
      onRedo (commitFaces histC
          (onUndo (commitFaces histB (commitFaces histA emptyHistory))).2) =
        (none, commitFaces histC
          (onUndo (commitFaces histB (commitFaces histA emptyHistory))).2) := by
  refine ⟨?_, ?_, ?_, ?_, ?_⟩
  · intro nav s; simp [addToHistory]
  · intro newFaces s
    by_cases h : newFaces.isEmpty <;> simp [addToHistory, h]
  · intro f fs s
    simp only [addToHistory, List.isEmpty_cons, Bool.false_eq_true, if_false,
      List.length_append, List.length_cons, List.length_nil]
    congr 1
    push_cast
    ring
  · rfl
  · rfl

/-- C10: `onUndo` and `onRedo` never touch the history entry list; whenever
their guard lets them act (`cursor > 0` for undo, `cursor < length - 1` for
redo) they only move the cursor by one and replace the active face set with a
copy of the entry at the new cursor. -/
theorem undo_redo_frame :
    ∀ s : HistoryState,
      (onUndo s).2.facesHistory = s.facesHistory ∧
      (onRedo s).2.facesHistory = s.facesHistory ∧
      (0 < s.historyIndex →
        onUndo s = (some (s.facesHistory.getD (s.historyIndex - 1).toNat []),
          { s with historyIndex := s.historyIndex - 1,
                   faces := s.facesHistory.getD (s.historyIndex - 1).toNat [] })) ∧
      (s.historyIndex < (s.facesHistory.length : ℤ) - 1 →
        onRedo s = (some (s.facesHistory.getD (s.historyIndex + 1).toNat []),
          { s with historyIndex := s.historyIndex + 1,
                   faces := s.facesHistory.getD (s.historyIndex + 1).toNat [] })) := by
  intro s
  refine ⟨?_, ?_, ?_, ?_⟩
  · by_cases h : 0 < s.historyIndex <;> simp [onUndo, h]
  · by_cases h : s.historyIndex < (s.facesHistory.length : ℤ) - 1 <;> simp [onRedo, h]
  · intro h; simp [onUndo, h]
  · intro h; simp [onRedo, h]

/-! ## The inference adapter and the `useFaceDetection` hook

`sendToMediaPipe` (`faceDetection.ts`) wraps one MediaPipe round trip: the
external event — the `onResults` callback, the timeout firing first, or a
failure — enters the model as data, and the function's visible outcome is an
`Except`: the converted face list, or the rejection message. -/

/-- What the external MediaPipe detector does on one `send` call: deliver
results (possibly none) to `onResults`, let the timeout fire first, or throw
on `send` / while processing the callback. -/
inductive MediaPipeEvent where
  | results (detections : List RawDetection)
  | timeout
  | sendError
  | processError
deriving DecidableEq, Repr

/-- The message of the error rejected by the timeout branch of
`sendToMediaPipe` (`処理に時間がかかりすぎています`). -/
def timeoutMessage : String := "処理に時間がかかりすぎています"

/-- The message of the error rejected by the failure branches of
`sendToMediaPipe` (`顔検出に失敗しました`). -/
def detectionFailedMessage : String := "顔検出に失敗しました"

/-- `sendToMediaPipe` from `faceDetection.ts`: on the timeout it rejects with
`timeoutMessage` (and resets the busy state); on an empty result set it
resolves `[]`; otherwise it resolves the detections converted to image
coordinates; `send`/processing failures reject with `detectionFailedMessage`. -/
def sendToMediaPipe (canvasWidth canvasHeight imageWidth imageHeight : ℚ)
    (event : MediaPipeEvent) : Except String (List (Face ℚ)) :=
  match event with
  | .timeout => .error timeoutMessage
  | .sendError => .error detectionFailedMessage
  | .processError => .error detectionFailedMessage
  | .results detections =>
    if detections.isEmpty then .ok []
    else .ok (convertDetectionsToImageCoordinates detections
        canvasWidth canvasHeight imageWidth imageHeight)

/-- The state cells of the `useFaceDetection` hook. -/
structure HookState where
  faces : List (Face ℚ)
  isDetecting : Bool
  error : Option String
deriving DecidableEq, Repr

/-- `useFaceDetection.detectFaces`: set `isDetecting`, clear the error, clear
`faces`, `await` exactly one service call (consuming one element of the
oracle of call outcomes — the hook never retries), then store the result or
the error message; `isDetecting` is cleared in the `finally`.  With an empty
oracle the single `await` never settles and the hook stays in its cleared
in-flight state. -/
def hookDetectFaces (oracle : List (Except String (List (Face ℚ))))
    (s : HookState) : HookState × List (Except String (List (Face ℚ))) :=
  match oracle with
  | [] => ({ s with isDetecting := true, error := none, faces := [] }, [])
  | outcome :: rest =>
    match outcome with
    | .ok detectedFaces => ({ faces := detectedFaces, isDetecting := false, error := none }, rest)
    | .error msg => ({ faces := [], isDetecting := false, error := some msg }, rest)

/-- A nonempty face set held by the hook before a detection call starts. -/
def c4PriorFaces : List (Face ℚ) := [⟨5, 5, 20, 20, 8/10⟩]

/-- C4, counterexample.  When the detector times out, the hook does *not*
leave the face set at its last good state: `detectFaces` clears `faces` when
the call starts and again in the `catch`, so a prior nonempty face set is
lost (it ends `[]`, not `c4PriorFaces`). -/
theorem hook_timeout_clears_faces :
    (hookDetectFaces [sendToMediaPipe 100 100 100 100 .timeout]
        ⟨c4PriorFaces, false, none⟩).1.faces = [] ∧
      c4PriorFaces ≠ [] := by
  exact ⟨rfl, by simp [c4PriorFaces]⟩

/-- C4, amended: when the detection call times out, the failure is surfaced
to the caller as the timeout error message, exactly one detector call is
consumed (no automatic retry), and the hook's face set is *cleared to empty*
— not left at the faces held before the call began — with `isDetecting`
reset. -/
theorem hook_timeout_surfaced_no_retry :
    ∀ (s : HookState) (rest : List (Except String (List (Face ℚ))))
      (cw ch iw ih : ℚ),
      hookDetectFaces (sendToMediaPipe cw ch iw ih .timeout :: rest) s =
        ({ faces := [], isDetecting := false, error := some timeoutMessage }, rest) := by
  intro s rest cw ch iw ih
  rfl

/-! ## The full-image detection pipeline and its disabled post-processing -/

/-- `CONFIDENCE_THRESHOLD` from `faceDetection.ts` (0.4). -/
def CONFIDENCE_THRESHOLD : ℚ := 4/10

/-- `ENABLE_POST_PROCESSING` from `faceDetection.ts`: the flag controlling
whether `detectFaces` filters and deduplicates its results.  It is `false`
in the source. -/
def ENABLE_POST_PROCESSING : Bool := false

/-- `MIN_FACE_SIZE_RATIO` from `faceDetection.ts` (2% of the image area). -/
def MIN_FACE_SIZE_RATIO : ℚ := 2/100

/-- `MAX_FACE_SIZE_RATIO` from `faceDetection.ts` (50% of the image area). -/
def MAX_FACE_SIZE_RATIO : ℚ := 1/2

/-- `MIN_ASPECT_RATIO` from `faceDetection.ts` (0.6). -/
def MIN_ASPECT_RATIO : ℚ := 6/10

/-- `MAX_ASPECT_RATIO` from `faceDetection.ts` (1.5). -/
def MAX_ASPECT_RATIO : ℚ := 3/2

/-- `IOU_THRESHOLD` from `faceDetection.ts` (0.3). -/
def IOU_THRESHOLD : ℚ := 3/10

/-- `MIN_CONFIDENCE_AFTER_FILTER` from `faceDetection.ts` (0.08). -/
def MIN_CONFIDENCE_AFTER_FILTER : ℚ := 8/100

/-- The post-detection processing of `detectFaces` (`faceDetection.ts`):
when `ENABLE_POST_PROCESSING` is set it filters by size/aspect ratio and by
confidence and removes duplicates at `IOU_THRESHOLD`; when the flag is off —
as in the source — the converted faces are returned unchanged. -/
def detectFacesPostProcess (imageWidth imageHeight : ℚ)
    (faces : List (Face ℚ)) : List (Face ℚ) :=
  if ENABLE_POST_PROCESSING then
    let imageArea := imageWidth * imageHeight
    let filteredFaces := faces.filter fun face =>
      let faceArea := face.width * face.height
      let areaRatio := faceArea / imageArea
      let aspectRatio := face.width / face.height
      MIN_FACE_SIZE_RATIO ≤ areaRatio ∧ areaRatio ≤ MAX_FACE_SIZE_RATIO ∧
        MIN_ASPECT_RATIO ≤ aspectRatio ∧ aspectRatio ≤ MAX_ASPECT_RATIO
    let actualMinConfidence := min MIN_CONFIDENCE_AFTER_FILTER (CONFIDENCE_THRESHOLD - 2/100)
    let filteredFaces2 := filteredFaces.filter fun face =>
      ¬ (face.confidence < actualMinConfidence)
    removeDuplicateDetections filteredFaces2 IOU_THRESHOLD
  else faces

/-- `detectFaces` of the `FaceDetectionService`: one MediaPipe round trip
followed by the (disabled) post-processing. -/
def detectFacesService (canvasWidth canvasHeight imageWidth imageHeight : ℚ)
    (event : MediaPipeEvent) : Except String (List (Face ℚ)) :=
  (sendToMediaPipe canvasWidth canvasHeight imageWidth imageHeight event).map
    (detectFacesPostProcess imageWidth imageHeight)

/-! ## The stricter duplicate resolver of the manual-selection path -/

/-- The duplicate test of `removeDuplicateDetectionsWithCenterDistance`
(`faceDetection.ts`): a candidate is a duplicate of an accepted face when
their IoU exceeds the threshold, or when their centers are closer than the
center-distance threshold *and* their size ratio
(`min(size)/max(size)`, `size = sqrt(width·height)`) exceeds `0.7`. -/
noncomputable def strictIsDuplicate (iouThreshold centerDistanceThreshold : ℝ)
    (face existing : Face ℝ) : Bool :=
  if iouThreshold < calculateIoU face existing then true
  else
    let faceCenterX := face.x + face.width / 2
    let faceCenterY := face.y + face.height / 2
    let existingCenterX := existing.x + existing.width / 2
    let existingCenterY := existing.y + existing.height / 2
    let centerDistance := Real.sqrt ((faceCenterX - existingCenterX) ^ 2 +
      (faceCenterY - existingCenterY) ^ 2)
    if centerDistance < centerDistanceThreshold then
      let faceSize := Real.sqrt (face.width * face.height)
      let existingSize := Real.sqrt (existing.width * existing.height)
      let sizeRatio := min faceSize existingSize / max faceSize existingSize
      if 7/10 < sizeRatio then true else false
    else false

/-- The accept loop of the stricter resolver: a candidate is appended exactly
when no accepted face flags it via `strictIsDuplicate`. -/
noncomputable def strictDedupLoop (iouThreshold centerDistanceThreshold : ℝ) :
    List (Face ℝ) → List (Face ℝ) → List (Face ℝ)
  | result, [] => result
  | result, face :: rest =>
    if result.any (strictIsDuplicate iouThreshold centerDistanceThreshold face) then
      strictDedupLoop iouThreshold centerDistanceThreshold result rest
    else
      strictDedupLoop iouThreshold centerDistanceThreshold (result ++ [face]) rest

/-- `removeDuplicateDetectionsWithCenterDistance` from `faceDetection.ts`
(used by the manual region-selection path): sort by descending confidence and
greedily accept with the stricter duplicate test; the center-distance
threshold is `0.3 ×` the average face size (`sqrt(width·height)` averaged
over the sorted list). -/
noncomputable def removeDuplicateDetectionsWithCenterDistance
    (faces : List (Face ℝ)) (iouThreshold : ℝ) : List (Face ℝ) :=
  if faces.isEmpty then []
  else
    let sorted := sortByConfDesc faces
    let averageFaceSize :=
      if sorted.isEmpty then 0
      else (sorted.foldl (fun sum face => sum + Real.sqrt (face.width * face.height)) 0) /
        (sorted.length : ℝ)
    let centerDistanceThreshold := averageFaceSize * (3/10)
    strictDedupLoop iouThreshold centerDistanceThreshold [] sorted

theorem strictDedupLoop_pairwise (t cdt : ℝ) (l : List (Face ℝ)) :
    ∀ result : List (Face ℝ),
      result.Pairwise (fun a b => calculateIoU a b ≤ t) →
      (strictDedupLoop t cdt result l).Pairwise (fun a b => calculateIoU a b ≤ t) := by
  induction l with
  | nil => intro result h; simpa [strictDedupLoop] using h
  | cons face rest ih =>
    intro result h
    by_cases hdup : result.any (strictIsDuplicate t cdt face) = true
    · simpa [strictDedupLoop, hdup] using ih result h
    · have hall : ∀ existing ∈ result, calculateIoU face existing ≤ t := by
        intro e he
        by_contra hc
        push_neg at hc
        refine hdup (List.any_eq_true.mpr ⟨e, he, ?_⟩)
        rw [strictIsDuplicate, if_pos hc]
      have happ : (result ++ [face]).Pairwise (fun a b => calculateIoU a b ≤ t) := by
        refine List.pairwise_append.mpr ⟨h, List.pairwise_singleton _ _, ?_⟩
        intro a ha b hb
        simp only [List.mem_singleton] at hb
        subst hb
        rw [calculateIoU_comm]
        exact hall a ha
      simpa [strictDedupLoop, hdup] using ih (result ++ [face]) happ

theorem removeDuplicateDetectionsWithCenterDistance_pairwise
    (faces : List (Face ℝ)) (t : ℝ) :
    (removeDuplicateDetectionsWithCenterDistance faces t).Pairwise
      (fun a b => calculateIoU a b ≤ t) := by
  unfold removeDuplicateDetectionsWithCenterDistance
  by_cases h : faces.isEmpty
  · simp [h]
  · simpa [h] using strictDedupLoop_pairwise t _ (sortByConfDesc faces) [] (by simp)

/-- The raw detection of the C2 counterexample (normalized box
`{0.5, 0.5, 0.2, 0.2}`, score `0.9`), delivered twice by MediaPipe. -/
def c2Raw : RawDetection := ⟨1/2, 1/2, 1/5, 1/5, 9/10⟩

/-- Its converted region at 100×100: `{40, 40, 20, 20}`. -/
def c2Face : Face ℚ := ⟨40, 40, 20, 20, 9/10⟩

/-- C2, counterexample.  With `ENABLE_POST_PROCESSING = false`, the automatic
full-image detection returns the converted detections without duplicate
removal: two identical raw detections become two identical committed regions
with IoU `1 > 0.3`, and `addToHistory` records this set — the committed
FaceSet violates the pairwise-IoU invariant. -/
theorem autoDetection_commits_duplicates :
    detectFacesService 100 100 100 100 (.results [c2Raw, c2Raw]) =
        .ok [c2Face, c2Face] ∧
      (commitFaces [c2Face, c2Face] emptyHistory).facesHistory = [[c2Face, c2Face]] ∧
      ¬ ([c2Face, c2Face].Pairwise fun a b => calculateIoU a b ≤ 3/10) := by
  refine ⟨?_, rfl, ?_⟩
  · norm_num [detectFacesService, sendToMediaPipe, detectFacesPostProcess,
      ENABLE_POST_PROCESSING, convertDetectionsToImageCoordinates, c2Raw, c2Face,
      max_def, min_def, Face.mk.injEq, Except.map]
  · intro h
    have h1 := (List.pairwise_cons.mp h).1 c2Face (by simp)
    rw [calculateIoU_self c2Face (by norm_num [c2Face]) (by norm_num [c2Face])] at h1
    norm_num at h1

/-- C2, amended: the pairwise-IoU invariant does *not* hold of every
committed FaceSet — the automatic full-image detection path commits the
normalizer's output unchanged, because `ENABLE_POST_PROCESSING` is `false`
and the post-processing (including duplicate removal) is skipped; duplicate
removal runs only on the manual region path, whose resolver output is
pairwise non-duplicate (no two returned regions have IoU above the
threshold). -/
theorem committed_sets_deduplicated_only_on_region_path :
    (∀ (imageWidth imageHeight : ℚ) (faces : List (Face ℚ)),
        detectFacesPostProcess imageWidth imageHeight faces = faces) ∧
      (∀ (faces : List (Face ℝ)) (t : ℝ),
        (removeDuplicateDetectionsWithCenterDistance faces t).Pairwise
          (fun a b => calculateIoU a b ≤ t)) := by
  constructor
  · intro iw ih faces
    simp [detectFacesPostProcess, ENABLE_POST_PROCESSING]
  · exact removeDuplicateDetectionsWithCenterDistance_pairwise

/-! ## The include/exclude merges of `onSelectionComplete` (`App.tsx`) -/

/-- The include-mode merge of `onSelectionComplete`: keep the current faces
and add each region face that does not duplicate (IoU `> 0.3`) an existing
face. -/
def includeMerge (faces facesInRegion : List (Face ℚ)) : List (Face ℚ) :=
  let iouThreshold : ℚ := 3/10
  let newFaces := facesInRegion.filter fun newFace =>
    ! faces.any fun existingFace => iouThreshold < calculateIoU newFace existingFace
  faces ++ newFaces

/-- The exclude-mode merge of `onSelectionComplete`: keep each current face
that does not duplicate (IoU `> 0.3`) some face of the selected region. -/
def excludeMerge (faces facesInRegion : List (Face ℚ)) : List (Face ℚ) :=
  let iouThreshold : ℚ := 3/10
  faces.filter fun existingFace =>
    ! facesInRegion.any fun faceInRegion => iouThreshold < calculateIoU existingFace faceInRegion

/-- A degenerate region (zero width): its IoU with anything — itself
included — is `0`. -/
def c7Degenerate : Face ℚ := ⟨0, 0, 0, 10, 1/2⟩

/-- C7, counterexample.  Include-mode merge is *not* idempotent for every
`facesInRegion` list: a zero-width region has IoU `0` with everything —
itself included — so it is re-added on every merge; merging
`[c7Degenerate]` twice into the empty set gives
`[c7Degenerate, c7Degenerate] ≠ [c7Degenerate]`. -/
theorem includeMerge_not_idempotent_on_degenerate :
    includeMerge [] [c7Degenerate] = [c7Degenerate] ∧
      includeMerge (includeMerge [] [c7Degenerate]) [c7Degenerate] =
        [c7Degenerate, c7Degenerate] ∧
      [c7Degenerate, c7Degenerate] ≠ [c7Degenerate] := by
  refine ⟨by norm_num [includeMerge], ?_, by simp⟩
  norm_num [includeMerge, calculateIoU, c7Degenerate, max_def, min_def]

/-- C7, amended: include-mode merge is idempotent for every current face set
and every `facesInRegion` list whose regions all have positive width and
height (each accepted region then blocks itself on the second pass via
IoU `1 > 0.3`, and each rejected region stays rejected because the merged
set extends the current one). -/
theorem includeMerge_idempotent :
    ∀ faces facesInRegion : List (Face ℚ),
      (∀ f ∈ facesInRegion, 0 < f.width ∧ 0 < f.height) →
      includeMerge (includeMerge faces facesInRegion) facesInRegion =
        includeMerge faces facesInRegion := by
  intro faces region hpos
  have hsub : ∀ x ∈ faces, x ∈ includeMerge faces region := by
    intro x hx
    simp only [includeMerge, List.mem_append]
    exact Or.inl hx
  have hself : ∀ n ∈ region,
      (! faces.any fun e => (3 : ℚ)/10 < calculateIoU n e) = true →
      n ∈ includeMerge faces region := by
    intro n hn hkeep
    simp only [includeMerge, List.mem_append]
    exact Or.inr (List.mem_filter.mpr ⟨hn, hkeep⟩)
  have hany : ∀ n ∈ region,
      ((includeMerge faces region).any fun e => (3 : ℚ)/10 < calculateIoU n e) = true := by
    intro n hn
    cases hfa : faces.any fun e => (3 : ℚ)/10 < calculateIoU n e with
    | true =>
      obtain ⟨e, he, hprop⟩ := List.any_eq_true.mp hfa
      exact List.any_eq_true.mpr ⟨e, hsub e he, hprop⟩
    | false =>
      have hmem := hself n hn (by rw [hfa]; rfl)
      refine List.any_eq_true.mpr ⟨n, hmem, ?_⟩
      have hiou := calculateIoU_self n (hpos n hn).1 (hpos n hn).2
      simp only [hiou, decide_eq_true_eq]
      norm_num
  show includeMerge faces region ++
      (region.filter fun n =>
        ! (includeMerge faces region).any fun e => (3 : ℚ)/10 < calculateIoU n e) =
    includeMerge faces region
  rw [List.append_right_eq_self]
  refine List.filter_eq_nil_iff.mpr ?_
  intro n hn
  simp only [Bool.not_eq_true, Bool.not_eq_true', hany n hn]
  simp

/-- C7 witness: idempotence at a concrete positive region. -/
theorem includeMerge_idempotent_witness :
    includeMerge (includeMerge [] [⟨0, 0, 10, 10, 1⟩]) [⟨0, 0, 10, 10, 1⟩] =
      includeMerge [] [⟨0, 0, 10, 10, 1⟩] :=
  includeMerge_idempotent [] [⟨0, 0, 10, 10, 1⟩] (by
    intro f hf
    simp only [List.mem_singleton] at hf
    subst hf
    norm_num)

/-! ## The lasso selector (`LassoSelector` component)

The freehand polygon lives in Display Canvas coordinates; its closure checks
use a Euclidean distance (`Math.sqrt`), so points are over `ℝ`. -/

/-- A point of the freehand path, in Display Canvas coordinates. -/
structure Point where
  x : ℝ
  y : ℝ

/-- `AUTO_CLOSE_DISTANCE_RATIO` from `LassoSelector` (0.05 of the canvas
size). -/
noncomputable def AUTO_CLOSE_DISTANCE_RATIO : ℝ := 5/100

/-- `MIN_DRAG_DISTANCE_RATIO` from `LassoSelector` (0.1 of the canvas
size). -/
noncomputable def MIN_DRAG_DISTANCE_RATIO : ℝ := 1/10

/-- The drawing refs of `LassoSelector` at the moment the pointer is
released: the accumulated points, the start point, the current point, and the
accumulated drag distance. -/
structure SelectionState where
  points : List Point
  startPoint : Option Point
  currentPoint : Option Point
  totalDragDistance : ℝ

/-- The decision taken by `handleEnd` (and re-checked by
`completeSelection`) in `LassoSelector`: the selection is completed — and the
closed polygon `points ++ [startPoint]` handed to `onSelectionComplete` —
only when there are at least 3 points and the path closed (the accumulated
drag distance reaches `MIN_DRAG_DISTANCE_RATIO × canvasSize` and the current
point is within `AUTO_CLOSE_DISTANCE_RATIO × canvasSize` of the start);
otherwise the attempt is discarded. -/
noncomputable def handleEndAccepted (canvasWidth canvasHeight : ℝ)
    (sel : SelectionState) : Option (List Point) :=
  match sel.startPoint, sel.currentPoint with
  | some startPoint, some currentPoint =>
    if 3 ≤ sel.points.length then
      let canvasSize := max canvasWidth canvasHeight
      let autoCloseDistance := canvasSize * AUTO_CLOSE_DISTANCE_RATIO
      let minDragDistance := canvasSize * MIN_DRAG_DISTANCE_RATIO
      let distance := Real.sqrt ((currentPoint.x - startPoint.x) ^ 2 +
        (currentPoint.y - startPoint.y) ^ 2)
      if minDragDistance ≤ sel.totalDragDistance ∧ distance < autoCloseDistance then
        if sel.points.length < 3 then none
        else some (sel.points ++ [startPoint])
      else none
    else none
  | _, _ => none

/-- The `include`/`exclude` manual modes of `App.tsx`. -/
inductive ManualMode where
  | includeMode
  | excludeMode

/-- `onSelectionComplete` (`App.tsx`) after the region detection returned
`facesInRegion`: merge per the manual mode, store the result as the active
face set and commit it to the history. -/
def onSelectionCompleteMerge (mode : ManualMode) (facesInRegion : List (Face ℚ))
    (s : HistoryState) : HistoryState :=
  match mode with
  | .includeMode =>
    let mergedFaces := includeMerge s.faces facesInRegion
    addToHistory false mergedFaces { s with faces := mergedFaces }
  | .excludeMode =>
    let remainingFaces := excludeMerge s.faces facesInRegion
    addToHistory false remainingFaces { s with faces := remainingFaces }

/-- The pointer-release pipeline: `handleEnd` either discards the attempt
(state untouched) or hands the closed polygon to the region detector
(`detectFacesInRegion`, an external inference call modelled as an oracle from
the polygon to the detected faces) and merges the result. -/
noncomputable def processSelectionEnd (canvasWidth canvasHeight : ℝ)
    (detectInRegion : List Point → List (Face ℚ)) (mode : ManualMode)
    (sel : SelectionState) (s : HistoryState) : HistoryState :=
  match handleEndAccepted canvasWidth canvasHeight sel with
  | none => s
  | some closedPoints => onSelectionCompleteMerge mode (detectInRegion closedPoints) s

/-- C8: a selection polygon with fewer than 3 points — or one that does not
close (insufficient drag distance, or the end point not within the auto-close
distance of the start) — is rejected without processing: the face set and
the history are left exactly as they were, and no history entry is
appended. -/
theorem selection_rejects_short_or_unclosed_polygon :
    (∀ (canvasWidth canvasHeight : ℝ) (detectInRegion : List Point → List (Face ℚ))
       (mode : ManualMode) (sel : SelectionState) (s : HistoryState),
        sel.points.length < 3 →
        processSelectionEnd canvasWidth canvasHeight detectInRegion mode sel s = s) ∧
      (∀ (canvasWidth canvasHeight : ℝ) (detectInRegion : List Point → List (Face ℚ))
         (mode : ManualMode) (sel : SelectionState) (s : HistoryState)
         (startPoint currentPoint : Point),
        sel.startPoint = some startPoint →
        sel.currentPoint = some currentPoint →
        ¬ (max canvasWidth canvasHeight * MIN_DRAG_DISTANCE_RATIO ≤ sel.totalDragDistance ∧
            Real.sqrt ((currentPoint.x - startPoint.x) ^ 2 +
                (currentPoint.y - startPoint.y) ^ 2) <
              max canvasWidth canvasHeight * AUTO_CLOSE_DISTANCE_RATIO) →
        processSelectionEnd canvasWidth canvasHeight detectInRegion mode sel s = s) := by
  constructor
  · intro cw ch detect mode sel s hlen
    have hnone : handleEndAccepted cw ch sel = none := by
      unfold handleEndAccepted
      match hst : sel.startPoint, hcur : sel.currentPoint with
      | some st, some cur => simp [not_le.mpr hlen]
      | some st, none => rfl
      | none, _ => rfl
    simp [processSelectionEnd, hnone]
  · intro cw ch detect mode sel s st cur hst hcur hnc
    have hnone : handleEndAccepted cw ch sel = none := by
      unfold handleEndAccepted
      rw [hst, hcur]
      by_cases hlen : 3 ≤ sel.points.length
      · simp only [if_pos hlen, if_neg hnc]
      · simp only [if_neg hlen]
    simp [processSelectionEnd, hnone]

/-! ## The stamp transform (`imageProcessor.ts`, `applyStamp`) -/

/-- A `ctx.drawImage(stampImage, drawX, drawY, drawWidth, drawHeight)` call:
position and size of the drawn stamp on the Display Canvas. -/
structure DrawCommand where
  x : ℝ
  y : ℝ
  width : ℝ
  height : ℝ

/-- The per-face clamped rectangle of `applyStamp`: the face is scaled from
Source Image space to canvas space (`Math.floor` of each coordinate), `x, y`
are clamped to `≥ 0`, and width/height capped at the canvas bounds. -/
noncomputable def stampClampedRect (canvasWidth canvasHeight imageWidth imageHeight : ℝ)
    (face : Face ℝ) : DrawCommand :=
  let scaleX := canvasWidth / imageWidth
  let scaleY := canvasHeight / imageHeight
  let x := max 0 ((⌊face.x * scaleX⌋ : ℤ) : ℝ)
  let y := max 0 ((⌊face.y * scaleY⌋ : ℤ) : ℝ)
  let width := min (canvasWidth - x) ((⌊face.width * scaleX⌋ : ℤ) : ℝ)
  let height := min (canvasHeight - y) ((⌊face.height * scaleY⌋ : ℤ) : ℝ)
  ⟨x, y, width, height⟩

/-- The drawing arithmetic of `applyStamp` for a clamped face rectangle
`(x, y, width, height)`: `faceDiagonal = sqrt(width² + height²)`,
`stampDiagonal = sqrt(stampWidth × stampHeight)` (the source's name — it is
the geometric mean of the stamp sides, not its diagonal),
`scale = faceDiagonal / stampDiagonal × 1.1`, and the scaled stamp is centered
on the rectangle. -/
noncomputable def stampDrawCommand (stampWidth stampHeight x y width height : ℝ) :
    DrawCommand :=
  let faceDiagonal := Real.sqrt (width * width + height * height)
  let stampDiagonal := Real.sqrt (stampWidth * stampHeight)
  let scale := faceDiagonal / stampDiagonal * (11/10)
  let drawWidth := stampWidth * scale
  let drawHeight := stampHeight * scale
  let drawX := x + (width - drawWidth) / 2
  let drawY := y + (height - drawHeight) / 2
  ⟨drawX, drawY, drawWidth, drawHeight⟩

/-- `applyStamp` (`imageProcessor.ts`), one face: clamp the rectangle, skip
it when its clamped width or height is `≤ 0`, otherwise draw the scaled,
centered stamp. -/
noncomputable def applyStampFace (canvasWidth canvasHeight imageWidth imageHeight
    stampWidth stampHeight : ℝ) (face : Face ℝ) : Option DrawCommand :=
  let r := stampClampedRect canvasWidth canvasHeight imageWidth imageHeight face
  if r.width ≤ 0 ∨ r.height ≤ 0 then none
  else some (stampDrawCommand stampWidth stampHeight r.x r.y r.width r.height)

/-- C6, counterexample.  Canvas = image = 100×100, square 10×10 stamp, face
rectangle 30×40 (diagonal 50): the source computes `stampDiagonal` as
`sqrt(10·10) = 10` — the geometric mean, not the stamp's diagonal — so the
drawn stamp is 55×55 and its actual diagonal `sqrt(55² + 55²) = 55·√2` is
*not* `1.1 × 50 = 55`: the drawn stamp's diagonal does not equal 1.1 times
the face rectangle's diagonal. -/
theorem stamp_drawn_diagonal_not_eleven_tenths :
    applyStampFace 100 100 100 100 10 10 ⟨0, 0, 30, 40, 1⟩ =
        some ⟨-25/2, -15/2, 55, 55⟩ ∧
      ¬ Real.sqrt (55 * 55 + 55 * 55) = (11/10) * Real.sqrt (30 * 30 + 40 * 40) := by
  have h2500 : Real.sqrt (2500 : ℝ) = 50 := by
    rw [show (2500 : ℝ) = 50^2 by norm_num, Real.sqrt_sq]
    norm_num
  have h100 : Real.sqrt (100 : ℝ) = 10 := by
    rw [show (100 : ℝ) = 10^2 by norm_num, Real.sqrt_sq]
    norm_num
  constructor
  · have hr : stampClampedRect 100 100 100 100 ⟨0, 0, 30, 40, 1⟩ =
        ⟨0, 0, 30, 40⟩ := by
      simp only [stampClampedRect]
      norm_num
    simp only [applyStampFace, hr]
    norm_num [stampDrawCommand, h2500, h100, DrawCommand.mk.injEq]
  · intro heq
    rw [show (30 * 30 + 40 * 40 : ℝ) = 2500 by norm_num, h2500,
      show (55 * 55 + 55 * 55 : ℝ) = 6050 by norm_num] at heq
    have hsq := Real.sq_sqrt (show (0:ℝ) ≤ 6050 by norm_num)
    rw [heq] at hsq
    norm_num at hsq

/-- C6, amended: for every clamped face rectangle and stamp with positive
sides, `applyStamp` centers the drawn stamp on the rectangle, and scales it
by `1.1 × faceDiagonal / sqrt(stampWidth × stampHeight)` — so the *geometric
mean* of the drawn width and height (not the drawn diagonal) equals `1.1 ×`
the rectangle's diagonal. -/
theorem stamp_centered_and_geometric_mean_scaled :
    ∀ stampWidth stampHeight x y width height : ℝ,
      0 < stampWidth → 0 < stampHeight →
      (stampDrawCommand stampWidth stampHeight x y width height).x +
          (stampDrawCommand stampWidth stampHeight x y width height).width / 2 =
        x + width / 2 ∧
      (stampDrawCommand stampWidth stampHeight x y width height).y +
          (stampDrawCommand stampWidth stampHeight x y width height).height / 2 =
        y + height / 2 ∧
      Real.sqrt ((stampDrawCommand stampWidth stampHeight x y width height).width *
          (stampDrawCommand stampWidth stampHeight x y width height).height) =
        (11/10) * Real.sqrt (width * width + height * height) := by
  intro sw sh x y w h hsw hsh
  have hsd : (0:ℝ) < Real.sqrt (sw * sh) := Real.sqrt_pos.mpr (by positivity)
  have hne : Real.sqrt (sw * sh) ≠ 0 := ne_of_gt hsd
  have hscale : (0:ℝ) ≤ Real.sqrt (w * w + h * h) / Real.sqrt (sw * sh) * (11/10) := by
    positivity
  refine ⟨?_, ?_, ?_⟩
  · simp only [stampDrawCommand]
    ring
  · simp only [stampDrawCommand]
    ring
  · simp only [stampDrawCommand]
    have harg : sw * (Real.sqrt (w * w + h * h) / Real.sqrt (sw * sh) * (11/10)) *
        (sh * (Real.sqrt (w * w + h * h) / Real.sqrt (sw * sh) * (11/10))) =
        (Real.sqrt (w * w + h * h) / Real.sqrt (sw * sh) * (11/10))^2 * (sw * sh) := by
      ring
    rw [harg, Real.sqrt_mul (sq_nonneg _), Real.sqrt_sq hscale]
    field_simp
    ring

/-- C6 witness: the amended stamp property at a concrete 10×10 stamp and a
30×40 rectangle. -/
theorem stamp_centered_and_geometric_mean_scaled_witness :
    (stampDrawCommand 10 10 0 0 30 40).x +
        (stampDrawCommand 10 10 0 0 30 40).width / 2 = 0 + 30 / 2 ∧
      (stampDrawCommand 10 10 0 0 30 40).y +
          (stampDrawCommand 10 10 0 0 30 40).height / 2 = 0 + 40 / 2 ∧
      Real.sqrt ((stampDrawCommand 10 10 0 0 30 40).width *
          (stampDrawCommand 10 10 0 0 30 40).height) =
        (11/10) * Real.sqrt (30 * 30 + 40 * 40) :=
  stamp_centered_and_geometric_mean_scaled 10 10 0 0 30 40 (by norm_num) (by norm_num)

/-! ## The pixelation transform (`imageProcessor.ts`, `applyMosaic`) -/

/-- `FACE_MARGIN_RATIO` from `imageProcessor.ts` (10% of the face size). -/
def FACE_MARGIN_RATIO : ℚ := 1/10

/-- An integer rectangle on the Display Canvas. -/
structure MosaicRect where
  x : ℤ
  y : ℤ
  width : ℤ
  height : ℤ
deriving DecidableEq, Repr

/-- The margin-expanded, canvas-clamped face rectangle of `applyMosaic`
(identical in `applyBlur`): the face is scaled into canvas space and floored,
expanded by `floor(dim × FACE_MARGIN_RATIO)` on each side, clamped to
`x, y ≥ 0` and to the canvas bounds. -/
def mosaicExpandedRect (canvasWidth canvasHeight imageWidth imageHeight : ℤ)
    (face : Face ℚ) : MosaicRect :=
  let scaleX := (canvasWidth : ℚ) / (imageWidth : ℚ)
  let scaleY := (canvasHeight : ℚ) / (imageHeight : ℚ)
  let faceX := ⌊face.x * scaleX⌋
  let faceY := ⌊face.y * scaleY⌋
  let faceWidth := ⌊face.width * scaleX⌋
  let faceHeight := ⌊face.height * scaleY⌋
  let marginX := ⌊(faceWidth : ℚ) * FACE_MARGIN_RATIO⌋
  let marginY := ⌊(faceHeight : ℚ) * FACE_MARGIN_RATIO⌋
  let x := max 0 (faceX - marginX)
  let y := max 0 (faceY - marginY)
  let width := min (canvasWidth - x) (faceWidth + marginX * 2)
  let height := min (canvasHeight - y) (faceHeight + marginY * 2)
  ⟨x, y, width, height⟩

/-- The grid cell size of `applyMosaic`:
`max(2, floor(minSide / (15 - intensity × 1.5)))`. -/
def mosaicGridSize (minSide : ℤ) (intensity : ℚ) : ℤ :=
  max 2 ⌊(minSide : ℚ) / (15 - intensity * (3/2))⌋

/-- One grid cell of the mosaic, relative to the expanded rectangle:
top-left corner `(gx, gy)` and the cell extent
`min gridSize (width - gx)` × `min gridSize (height - gy)`. -/
structure Cell where
  gx : ℕ
  gy : ℕ
  width : ℕ
  height : ℕ
deriving DecidableEq, Repr

/-- The cells visited by the two nested `for` loops of `applyMosaic`
(`for gy = 0; gy < height; gy += gridSize`, inner loop over `gx`). -/
def mosaicCells (width height gridSize : ℕ) : List Cell :=
  (List.range ((height + gridSize - 1) / gridSize)).flatMap fun i =>
    (List.range ((width + gridSize - 1) / gridSize)).map fun j =>
      ⟨j * gridSize, i * gridSize,
        min gridSize (width - j * gridSize), min gridSize (height - i * gridSize)⟩

/-- An RGBA pixel of the extracted `imageData`. -/
structure Pixel where
  r : ℕ
  g : ℕ
  b : ℕ
  a : ℕ
deriving DecidableEq, Repr

/-- The running accumulator of the per-cell averaging loop of `applyMosaic`:
channel sums and the pixel count. -/
structure MosaicAcc where
  r : ℕ
  g : ℕ
  b : ℕ
  a : ℕ
  count : ℕ
deriving DecidableEq, Repr

/-- One step of the per-cell averaging loop: add one pixel's channels and
bump the count. -/
def mosaicAccStep (acc : MosaicAcc) (p : Pixel) : MosaicAcc :=
  ⟨acc.r + p.r, acc.g + p.g, acc.b + p.b, acc.a + p.a, acc.count + 1⟩

/-- The nested `py`/`px` loops of `applyMosaic` accumulating one cell of the
extracted image data (`data col row` is the pixel at column `col`, row `row`
of the expanded rectangle). -/
def cellAccumulate (data : ℕ → ℕ → Pixel) (c : Cell) : MosaicAcc :=
  (List.range c.height).foldl
    (fun acc py =>
      (List.range c.width).foldl
        (fun acc2 px => mosaicAccStep acc2 (data (c.gx + px) (c.gy + py))) acc)
    ⟨0, 0, 0, 0, 0⟩

/-- The fill colour of one cell: the floored per-channel average; `none` when
the cell holds no pixel (the loop's `continue`). -/
def cellAverageColor (data : ℕ → ℕ → Pixel) (c : Cell) : Option Pixel :=
  let acc := cellAccumulate data c
  if acc.count = 0 then none
  else some ⟨acc.r / acc.count, acc.g / acc.count, acc.b / acc.count, acc.a / acc.count⟩

/-- The `fillRect` calls emitted for one expanded rectangle: each visited
cell paired with its flat average colour. -/
def mosaicFillCommands (data : ℕ → ℕ → Pixel) (width height gridSize : ℕ) :
    List (Cell × Pixel) :=
  (mosaicCells width height gridSize).filterMap fun c =>
    (cellAverageColor data c).map fun p => (c, p)

/-- `applyMosaic` (`imageProcessor.ts`), one face: scale and guard the face,
expand and clamp the rectangle, guard again, compute the grid size from the
smaller side, and emit the per-cell fill commands. -/
def applyMosaicFace (canvasWidth canvasHeight imageWidth imageHeight : ℤ)
    (intensity : ℚ) (data : ℕ → ℕ → Pixel) (face : Face ℚ) :
    Option (MosaicRect × ℤ × List (Cell × Pixel)) :=
  let scaleX := (canvasWidth : ℚ) / (imageWidth : ℚ)
  let scaleY := (canvasHeight : ℚ) / (imageHeight : ℚ)
  let faceWidth := ⌊face.width * scaleX⌋
  let faceHeight := ⌊face.height * scaleY⌋
  if faceWidth ≤ 0 ∨ faceHeight ≤ 0 then none
  else
    let r := mosaicExpandedRect canvasWidth canvasHeight imageWidth imageHeight face
    if r.width ≤ 0 ∨ r.height ≤ 0 then none
    else
      let minSide := min r.width r.height
      let gridSize := mosaicGridSize minSide intensity
      some (r, gridSize, mosaicFillCommands data r.width.toNat r.height.toNat gridSize.toNat)

theorem mem_mosaicCells {w h g : ℕ} {c : Cell} :
    c ∈ mosaicCells w h g ↔
      ∃ i < (h + g - 1) / g, ∃ j < (w + g - 1) / g,
        c = ⟨j * g, i * g, min g (w - j * g), min g (h - i * g)⟩ := by
  simp only [mosaicCells, List.mem_flatMap, List.mem_map, List.mem_range]
  constructor
  · rintro ⟨i, hi, j, hj, rfl⟩
    exact ⟨i, hi, j, hj, rfl⟩
  · rintro ⟨i, hi, j, hj, rfl⟩
    exact ⟨i, hi, j, hj, rfl⟩

theorem div_lt_ceilDiv {px w g : ℕ} (hg : 0 < g) (h : px < w) :
    px / g < (w + g - 1) / g := by
  have h1 : px + g ≤ w + g - 1 := by omega
  have h2 : (px + g) / g = px / g + 1 := Nat.add_div_right px hg
  have h3 : (px + g) / g ≤ (w + g - 1) / g := Nat.div_le_div_right h1
  omega

theorem lt_div_mul_add (px : ℕ) {g : ℕ} (hg : 0 < g) : px < px / g * g + g := by
  have h1 := Nat.div_add_mod px g
  have h2 := Nat.mod_lt px hg
  have h3 : g * (px / g) = px / g * g := Nat.mul_comm _ _
  omega

theorem cell_start_lt {j w g : ℕ} (hg : 0 < g) (hj : j < (w + g - 1) / g) : j * g < w := by
  have h1 : j + 1 ≤ (w + g - 1) / g := hj
  have h2 : (j + 1) * g ≤ ((w + g - 1) / g) * g := Nat.mul_le_mul h1 (le_refl g)
  have h3 : ((w + g - 1) / g) * g ≤ w + g - 1 := Nat.div_mul_le_self _ _
  have h4 : (j + 1) * g = j * g + g := by ring
  omega

theorem cellAccumulate_row (data : ℕ → ℕ → Pixel) (gx gy py : ℕ) (acc : MosaicAcc) :
    ∀ w : ℕ,
      (List.range w).foldl (fun a px => mosaicAccStep a (data (gx + px) (gy + py))) acc =
        ⟨acc.r + ∑ px ∈ Finset.range w, (data (gx + px) (gy + py)).r,
         acc.g + ∑ px ∈ Finset.range w, (data (gx + px) (gy + py)).g,
         acc.b + ∑ px ∈ Finset.range w, (data (gx + px) (gy + py)).b,
         acc.a + ∑ px ∈ Finset.range w, (data (gx + px) (gy + py)).a,
         acc.count + w⟩ := by
  intro w
  induction w with
  | zero => simp
  | succ n ih =>
    rw [List.range_succ, List.foldl_append, ih]
    simp only [List.foldl_cons, List.foldl_nil, mosaicAccStep, MosaicAcc.mk.injEq,
      Finset.sum_range_succ]
    refine ⟨?_, ?_, ?_, ?_, ?_⟩ <;> omega

theorem cellAccumulate_eq (data : ℕ → ℕ → Pixel) (c : Cell) :
    cellAccumulate data c =
      ⟨∑ py ∈ Finset.range c.height, ∑ px ∈ Finset.range c.width, (data (c.gx + px) (c.gy + py)).r,
       ∑ py ∈ Finset.range c.height, ∑ px ∈ Finset.range c.width, (data (c.gx + px) (c.gy + py)).g,
       ∑ py ∈ Finset.range c.height, ∑ px ∈ Finset.range c.width, (data (c.gx + px) (c.gy + py)).b,
       ∑ py ∈ Finset.range c.height, ∑ px ∈ Finset.range c.width, (data (c.gx + px) (c.gy + py)).a,
       c.width * c.height⟩ := by
  obtain ⟨gx, gy, w, h⟩ := c
  simp only [cellAccumulate]
  induction h with
  | zero => simp
  | succ n ih =>
    rw [List.range_succ, List.foldl_append, ih]
    simp only [List.foldl_cons, List.foldl_nil]
    rw [cellAccumulate_row]
    simp only [MosaicAcc.mk.injEq, Finset.sum_range_succ, Nat.mul_succ]

theorem filterMap_eq_map_of {α β : Type} (f : α → Option β) (m : α → β) :
    ∀ l : List α, (∀ a ∈ l, f a = some (m a)) → l.filterMap f = l.map m := by
  intro l
  induction l with
  | nil => intro _; rfl
  | cons a as ih =>
    intro hall
    rw [List.filterMap_cons, hall a (by simp), List.map_cons,
      ih fun x hx => hall x (by simp [hx])]

theorem mosaicCells_bounds {w h g : ℕ} (hg : 0 < g) :
    ∀ c ∈ mosaicCells w h g,
      0 < c.width ∧ 0 < c.height ∧ c.gx + c.width ≤ w ∧ c.gy + c.height ≤ h := by
  intro c hc
  obtain ⟨i, hi, j, hj, rfl⟩ := mem_mosaicCells.mp hc
  have hx := cell_start_lt hg hj
  have hy := cell_start_lt hg hi
  refine ⟨?_, ?_, ?_, ?_⟩ <;> simp only [] <;> omega

/-- C9: `applyMosaic` partitions each margin-expanded, canvas-clamped face
rectangle into grid cells of size `max(2, floor(minSide / (15 - intensity ×
1.5)))` — where `minSide` is the smaller side of that rectangle — and fills
each cell with the flat (floored) average of the cell's RGBA pixel values;
for `minSide = 10` and intensity `3` the resulting grid size is
`max(2, floor(10/10.5)) = 2`.  Formally: the grid size is the claimed
formula (with the concrete instance); for positive grid size the visited
cells cover every pixel of the rectangle exactly once and stay inside it;
the per-cell accumulator sums exactly the cell's pixels, counting
`width × height` of them; and the emitted fill commands pair every cell with
its floored average colour. -/
theorem applyMosaic_partitions_and_averages :
    (∀ (minSide : ℤ) (intensity : ℚ),
        mosaicGridSize minSide intensity =
          max 2 ⌊(minSide : ℚ) / (15 - intensity * (3/2))⌋) ∧
      mosaicGridSize 10 3 = 2 ∧
      (∀ width height gridSize : ℕ, 0 < gridSize →
        (∀ px py, px < width → py < height →
          ∃ c ∈ mosaicCells width height gridSize,
            c.gx ≤ px ∧ px < c.gx + c.width ∧ c.gy ≤ py ∧ py < c.gy + c.height) ∧
        (∀ c ∈ mosaicCells width height gridSize,
          ∀ c' ∈ mosaicCells width height gridSize,
          ∀ px py,
            c.gx ≤ px ∧ px < c.gx + c.width ∧ c.gy ≤ py ∧ py < c.gy + c.height →
            c'.gx ≤ px ∧ px < c'.gx + c'.width ∧ c'.gy ≤ py ∧ py < c'.gy + c'.height →
            c = c') ∧
        (∀ c ∈ mosaicCells width height gridSize,
          c.gx + c.width ≤ width ∧ c.gy + c.height ≤ height)) ∧
      (∀ (data : ℕ → ℕ → Pixel) (c : Cell),
        (cellAccumulate data c).count = c.width * c.height ∧
        (cellAccumulate data c).r =
          ∑ py ∈ Finset.range c.height, ∑ px ∈ Finset.range c.width,
            (data (c.gx + px) (c.gy + py)).r) ∧
      (∀ (data : ℕ → ℕ → Pixel) (width height gridSize : ℕ), 0 < gridSize →
        mosaicFillCommands data width height gridSize =
          (mosaicCells width height gridSize).map fun c =>
            (c, ⟨(cellAccumulate data c).r / (cellAccumulate data c).count,
                 (cellAccumulate data c).g / (cellAccumulate data c).count,
                 (cellAccumulate data c).b / (cellAccumulate data c).count,
                 (cellAccumulate data c).a / (cellAccumulate data c).count⟩)) := by
  refine ⟨fun minSide intensity => rfl, by norm_num [mosaicGridSize], ?_, ?_, ?_⟩
  · intro w h g hg
    refine ⟨?_, ?_, ?_⟩
    · intro px py hpx hpy
      refine ⟨⟨px / g * g, py / g * g, min g (w - px / g * g), min g (h - py / g * g)⟩, ?_, ?_⟩
      · exact mem_mosaicCells.mpr
          ⟨py / g, div_lt_ceilDiv hg hpy, px / g, div_lt_ceilDiv hg hpx, rfl⟩
      · have h1 : px / g * g ≤ px := Nat.div_mul_le_self px g
        have h2 : py / g * g ≤ py := Nat.div_mul_le_self py g
        have h3 := lt_div_mul_add px hg
        have h4 := lt_div_mul_add py hg
        simp only []
        omega
    · intro c hc c' hc' px py hin hin'
      obtain ⟨i, hi, j, hj, rfl⟩ := mem_mosaicCells.mp hc
      obtain ⟨i', hi', j', hj', rfl⟩ := mem_mosaicCells.mp hc'
      simp only [] at hin hin'
      have hj2 : px / g = j := Nat.div_eq_of_lt_le hin.1
        (by rw [Nat.succ_mul]
            exact lt_of_lt_of_le hin.2.1 (Nat.add_le_add_left (min_le_left _ _) _))
      have hj2' : px / g = j' := Nat.div_eq_of_lt_le hin'.1
        (by rw [Nat.succ_mul]
            exact lt_of_lt_of_le hin'.2.1 (Nat.add_le_add_left (min_le_left _ _) _))
      have hi2 : py / g = i := Nat.div_eq_of_lt_le hin.2.2.1
        (by rw [Nat.succ_mul]
            exact lt_of_lt_of_le hin.2.2.2 (Nat.add_le_add_left (min_le_left _ _) _))
      have hi2' : py / g = i' := Nat.div_eq_of_lt_le hin'.2.2.1
        (by rw [Nat.succ_mul]
            exact lt_of_lt_of_le hin'.2.2.2 (Nat.add_le_add_left (min_le_left _ _) _))
      have hj3 : j = j' := by omega
      have hi3 : i = i' := by omega
      rw [hj3, hi3]
    · intro c hc
      have := mosaicCells_bounds hg c hc
      exact ⟨this.2.2.1, this.2.2.2⟩
  · intro data c
    rw [cellAccumulate_eq]
    exact ⟨rfl, rfl⟩
  · intro data w h g hg
    refine filterMap_eq_map_of _ _ _ ?_
    intro c hc
    have hb := mosaicCells_bounds hg c hc
    have hcount : (cellAccumulate data c).count = c.width * c.height := by
      rw [cellAccumulate_eq]
    have hne : ¬ (cellAccumulate data c).count = 0 := by
      rw [hcount]
      exact Nat.mul_ne_zero (by omega) (by omega)
    simp only [cellAverageColor, if_neg hne]
    rfl

end Marumo
